import Mathlib

/-!
Shallow embedding of the line-counting core of `gitlsf` (`src/counter.rs`),
with theorems settling the specification claims about it.

File contents are byte sequences (`List Nat`, each element a byte value;
`10` is the byte `\n`).  The file system is a partial map from full path
strings to `FileData`; the Boolean flags model the independent failure
points of the Rust code (`File::open` failing is modelled by the path
being absent from the map, `metadata()` failing by `metaOk = false`,
`Read::read` failing by `readOk = false`, `Mmap::map` failing by
`mmapOk = false`).
-/

namespace Gitlsf

/-- Buffer size for reading files (2MB), from `const BUFFER_SIZE` in
`src/counter.rs`. -/
def BUFFER_SIZE : Nat := 2 * 1024 * 1024

/-- Threshold for using mmap vs buffered reading (1MB), from
`const MMAP_THRESHOLD` in `src/counter.rs`. -/
def MMAP_THRESHOLD : Nat := 1024 * 1024

/-- Threshold for parallel processing (100KB), from
`const PARALLEL_THRESHOLD` in `src/counter.rs`. -/
def PARALLEL_THRESHOLD : Nat := 100 * 1024

/-- Result of counting lines in a single file (`struct FileCount`). -/
structure FileCount where
  path : String
  lines : Nat
deriving DecidableEq, Repr

/-- `FileCount::new` from `src/counter.rs`. -/
def FileCount.new (path : String) (lines : Nat) : FileCount :=
  { path := path, lines := lines }

/-- Summary of counting results for multiple files (`struct CountSummary`). -/
structure CountSummary where
  files : List FileCount
  total_lines : Nat
  file_count : Nat
deriving DecidableEq, Repr

/-- `CountSummary::from_counts` from `src/counter.rs`: derives
`total_lines` and `file_count` from the list of per-file counts. -/
def CountSummary.from_counts (files : List FileCount) : CountSummary :=
  { files := files
    total_lines := (files.map (fun f => f.lines)).sum
    file_count := files.length }

/-- The error type (`GitlsfError` in `src/error.rs`), restricted to the
constructors the counting core uses: `Io` carries the offending path,
`Git` carries only a message (the opaque underlying `std::io::Error`
sources are dropped). -/
inductive GitlsfError where
  | io (path : String)
  | git (message : String)
deriving DecidableEq, Repr

/-- Which path, if any, an error carries (the `path` field of the `Io`
variant; the `Git` variant has no path field). -/
def GitlsfError.carried_path : GitlsfError → Option String
  | .io p => some p
  | .git _ => none

/-- The observable state of one file in the modelled file system:
its content as a byte list and the success/failure of the three
fallible operations the counting code performs on an opened file. -/
structure FileData where
  metaOk : Bool
  readOk : Bool
  mmapOk : Bool
  content : List Nat
deriving DecidableEq, Repr

/-- A fixed file-system state: full path string to file, `none` when the
file cannot be opened (does not exist). -/
def FS : Type := String → Option FileData

/-- `Path::join` on the string paths the code uses (`base.join(file)`). -/
def joinPath (base file : String) : String := base ++ "/" ++ file

/-- `std::fs::metadata(&full_path).ok().map(|m| m.len())`: the size of the
file at `full_path`, or `none` when the file is absent or its metadata
cannot be read. -/
def fsMetadata (fs : FS) (full_path : String) : Option Nat :=
  match fs full_path with
  | some f => if f.metaOk then some f.content.length else none
  | none => none

/-- The pure scan of `count_lines_mmap` (`src/counter.rs` lines 85-104):
`memchr_iter(b'\n', &mmap).count()` plus one when the mapped content is
non-empty and its last byte is not `\n`. -/
def count_lines_mmap_content (s : List Nat) : Nat :=
  let count := s.count 10
  let has_trailing_newline : Bool :=
    match s.getLast? with
    | some b => b == 10
    | none => false
  if !s.isEmpty && !has_trailing_newline then count + 1 else count

/-- `count_lines_mmap` from `src/counter.rs`: `Mmap::map` failure becomes a
`Git`-variant error with a fixed message and no path; otherwise the mapped
bytes are scanned. -/
def count_lines_mmap (f : FileData) : Except GitlsfError Nat :=
  if f.mmapOk then
    Except.ok (count_lines_mmap_content f.content)
  else
    Except.error (GitlsfError.git "Failed to create memory map")

/-- The read loop of `count_lines_buffered` (`src/counter.rs` lines
160-181): the remaining bytes are consumed in chunks of `BUFFER_SIZE`,
accumulating the newline count and the last byte seen; at end of file the
trailing-line adjustment is applied to the accumulated state. -/
def count_lines_buffered_go (l : List Nat) (count : Nat) (last_byte : Option Nat) : Nat :=
  if h : l = [] then
    match last_byte with
    | some b => if b ≠ 10 then count + 1 else count
    | none => count
  else
    count_lines_buffered_go (l.drop BUFFER_SIZE)
      (count + (l.take BUFFER_SIZE).count 10)
      (l.take BUFFER_SIZE).getLast?
termination_by l.length
decreasing_by
  simp only [List.length_drop, BUFFER_SIZE]
  have : l.length ≠ 0 := fun hl => h (List.eq_nil_of_length_eq_zero hl)
  omega

/-- `count_lines_buffered` from `src/counter.rs`: a failing `read` call
surfaces an `Io` error carrying the full path; otherwise the chunked scan
runs over the whole content. -/
def count_lines_buffered (f : FileData) (full_path : String) : Except GitlsfError Nat :=
  if f.readOk then
    Except.ok (count_lines_buffered_go f.content 0 none)
  else
    Except.error (GitlsfError.io full_path)

/-- `count_lines` from `src/counter.rs` lines 132-151: open the file at
`base/file` (an `Io` error carrying the full path on failure), query its
metadata for the size (same error on failure), then dispatch on
`file_size > MMAP_THRESHOLD` between the mmap and the buffered strategy. -/
def count_lines (fs : FS) (base_path file_path : String) : Except GitlsfError Nat :=
  let full_path := joinPath base_path file_path
  match fs full_path with
  | none => Except.error (GitlsfError.io full_path)
  | some f =>
    if f.metaOk then
      let file_size := f.content.length
      if file_size > MMAP_THRESHOLD then
        count_lines_mmap f
      else
        count_lines_buffered f full_path
    else
      Except.error (GitlsfError.io full_path)

/-- `struct FileInfo` from `src/counter.rs`: path with its size, used only
during partitioning. -/
structure FileInfo where
  path : String
  size : Nat
deriving DecidableEq, Repr

/-- The metadata-collection stage of `count_lines_parallel`
(`src/counter.rs` lines 226-237): each path whose metadata can be read
becomes a `FileInfo`; the rest are dropped. -/
def collect_file_infos (fs : FS) (base_path : String) (files : List String) : List FileInfo :=
  files.filterMap (fun path =>
    (fsMetadata fs (joinPath base_path path)).map (fun size =>
      { path := path, size := size }))

/-- The partition stage of `count_lines_parallel` (`src/counter.rs` lines
240-242): `partition(|info| info.size < PARALLEL_THRESHOLD)`, small group
first. -/
def partition_small_large (infos : List FileInfo) : List FileInfo × List FileInfo :=
  infos.partition (fun info => info.size < PARALLEL_THRESHOLD)

/-- One insertion step of the stable sort modelling Rust's
`sort_by(|a, b| b.size.cmp(&a.size))`: `x` (originally earlier than every
element of the list) is placed before the first element whose size does
not exceed `x`'s, so equal sizes keep their original relative order. -/
def insert_by_size_desc (x : FileInfo) : List FileInfo → List FileInfo
  | [] => [x]
  | y :: ys =>
    if y.size ≤ x.size then x :: y :: ys else y :: insert_by_size_desc x ys

/-- `large_files.sort_by(|a, b| b.size.cmp(&a.size))` from `src/counter.rs`
line 245: Rust's slice sort is stable, modelled by a stable insertion sort
by size descending. -/
def sort_by_size_desc : List FileInfo → List FileInfo
  | [] => []
  | x :: xs => insert_by_size_desc x (sort_by_size_desc xs)

/-- The per-file step shared by the small-group and large-group passes of
`count_lines_parallel` (`src/counter.rs` lines 250-255 and 261-266): a
successful count becomes a `FileCount`, a failure is dropped. -/
def count_file_info (fs : FS) (base_path : String) (info : FileInfo) : Option FileCount :=
  match count_lines fs base_path info.path with
  | Except.ok lines => some (FileCount.new info.path lines)
  | Except.error _ => none

/-- `count_lines_parallel` from `src/counter.rs` lines 217-274: collect
sizes, partition by `PARALLEL_THRESHOLD`, sort the large group by size
descending, count the small group sequentially and the large group through
rayon's `par_iter().filter_map().collect()` (which collects results in the
iteration order of the sorted list), concatenate small then large, and
derive the summary. -/
def count_lines_parallel (fs : FS) (base_path : String) (files : List String) : CountSummary :=
  let file_infos := collect_file_infos fs base_path files
  let parts := partition_small_large file_infos
  let small_files := parts.1
  let large_files := sort_by_size_desc parts.2
  let small_counts := small_files.filterMap (count_file_info fs base_path)
  let large_counts := large_files.filterMap (count_file_info fs base_path)
  CountSummary.from_counts (small_counts ++ large_counts)

/-- `count_lines_sequential` from `src/counter.rs` lines 288-305: count
every supplied path in input order, dropping failures, and derive the
summary. -/
def count_lines_sequential (fs : FS) (base_path : String) (files : List String) : CountSummary :=
  let counts := files.filterMap (fun file_path =>
    match count_lines fs base_path file_path with
    | Except.ok lines => some (FileCount.new file_path lines)
    | Except.error _ => none)
  CountSummary.from_counts counts

/-- The line count as the specification states it: the number of `\n`
bytes, plus one when the content is non-empty and does not end in `\n`.
Written from the spec's words, to be compared with the code's two
strategies. -/
def spec_line_count (s : List Nat) : Nat :=
  s.count 10 + (if s ≠ [] ∧ s.getLast? ≠ some 10 then 1 else 0)

end Gitlsf

namespace Gitlsf

/-- The trailing-line adjustment the buffered loop applies to the last
byte it tracked: one extra line unless the byte is `\n` or no byte was
ever read. -/
def trailing_adjust : Option Nat → Nat
  | some b => if b ≠ 10 then 1 else 0
  | none => 0

theorem count_lines_buffered_go_aux (n : Nat) :
    ∀ (l : List Nat), l.length ≤ n → ∀ (count : Nat) (last_byte : Option Nat),
      count_lines_buffered_go l count last_byte =
        count + l.count 10 + trailing_adjust (l.getLast?.or last_byte) := by
  induction n with
  | zero =>
    intro l hl count last_byte
    have h0 : l = [] := List.eq_nil_of_length_eq_zero (Nat.le_zero.mp hl)
    subst h0
    rw [count_lines_buffered_go.eq_def]
    cases last_byte with
    | none => simp [trailing_adjust]
    | some b =>
      simp [trailing_adjust]
      split <;> omega
  | succ n ih =>
    intro l hl count last_byte
    by_cases h : l = []
    · subst h
      rw [count_lines_buffered_go.eq_def]
      cases last_byte with
      | none => simp [trailing_adjust]
      | some b =>
        simp [trailing_adjust]
        split <;> omega
    · rw [count_lines_buffered_go.eq_def]
      rw [dif_neg h]
      have hlen : (l.drop BUFFER_SIZE).length ≤ n := by
        rw [List.length_drop]
        have hpos : 0 < l.length := List.length_pos.mpr h
        have : (1 : Nat) ≤ BUFFER_SIZE := by norm_num [BUFFER_SIZE]
        omega
      rw [ih (l.drop BUFFER_SIZE) hlen]
      have htd : l.take BUFFER_SIZE ++ l.drop BUFFER_SIZE = l :=
        List.take_append_drop _ _
      have hcount : l.count 10 =
          (l.take BUFFER_SIZE).count 10 + (l.drop BUFFER_SIZE).count 10 := by
        conv_lhs => rw [← htd]
        exact List.count_append _ _ _
      have hlast : l.getLast? =
          (l.drop BUFFER_SIZE).getLast?.or (l.take BUFFER_SIZE).getLast? := by
        conv_lhs => rw [← htd]
        exact List.getLast?_append
      have htake_ne : l.take BUFFER_SIZE ≠ [] := by
        simp only [ne_eq, List.take_eq_nil_iff]
        push_neg
        constructor
        · norm_num [BUFFER_SIZE]
        · exact h
      obtain ⟨y, hy⟩ : ∃ y, (l.take BUFFER_SIZE).getLast? = some y := by
        cases hy : (l.take BUFFER_SIZE).getLast? with
        | none => exact absurd (List.getLast?_eq_none_iff.mp hy) htake_ne
        | some y => exact ⟨y, rfl⟩
      rw [hlast, hy, hcount]
      cases (l.drop BUFFER_SIZE).getLast? <;> simp [Option.or] <;> ring

theorem count_lines_buffered_go_spec (l : List Nat) (count : Nat) (last_byte : Option Nat) :
    count_lines_buffered_go l count last_byte =
      count + l.count 10 + trailing_adjust (l.getLast?.or last_byte) :=
  count_lines_buffered_go_aux l.length l (Nat.le_refl _) count last_byte

theorem count_lines_mmap_content_eq_spec (s : List Nat) :
    count_lines_mmap_content s = spec_line_count s := by
  unfold count_lines_mmap_content spec_line_count
  cases hs : s.getLast? with
  | none =>
    have h0 : s = [] := List.getLast?_eq_none_iff.mp hs
    subst h0
    simp
  | some b =>
    have hne : s ≠ [] := by rintro rfl; simp at hs
    by_cases hb : b = 10
    · subst hb
      simp [hs, hne, List.isEmpty_eq_false.mpr hne]
    · simp [hs, hne, List.isEmpty_eq_false.mpr hne, hb]

theorem count_lines_buffered_content_eq_spec (s : List Nat) :
    count_lines_buffered_go s 0 none = spec_line_count s := by
  rw [count_lines_buffered_go_spec]
  unfold spec_line_count
  cases hs : s.getLast? with
  | none =>
    have h0 : s = [] := List.getLast?_eq_none_iff.mp hs
    subst h0
    simp [trailing_adjust, Option.or]
  | some b =>
    have hne : s ≠ [] := by rintro rfl; simp at hs
    by_cases hb : b = 10
    · subst hb
      simp [Option.or, trailing_adjust, hne]
    · simp [Option.or, trailing_adjust, hne, hb]

end Gitlsf

namespace Gitlsf

theorem mem_insert_by_size_desc (a x : FileInfo) (l : List FileInfo) :
    a ∈ insert_by_size_desc x l ↔ a = x ∨ a ∈ l := by
  induction l with
  | nil => simp [insert_by_size_desc]
  | cons y ys ih =>
    unfold insert_by_size_desc
    by_cases hy : y.size ≤ x.size
    · simp [hy, List.mem_cons]
    · simp only [hy, if_false, List.mem_cons, ih]
      tauto

theorem insert_by_size_desc_perm (x : FileInfo) (l : List FileInfo) :
    (insert_by_size_desc x l).Perm (x :: l) := by
  induction l with
  | nil => simp [insert_by_size_desc]
  | cons y ys ih =>
    unfold insert_by_size_desc
    by_cases hy : y.size ≤ x.size
    · simp [hy]
    · simp only [hy, if_false]
      have h1 : (y :: insert_by_size_desc x ys).Perm (y :: x :: ys) := ih.cons y
      exact h1.trans (List.Perm.swap x y ys)

theorem sort_by_size_desc_perm (l : List FileInfo) :
    (sort_by_size_desc l).Perm l := by
  induction l with
  | nil => simp [sort_by_size_desc]
  | cons x xs ih =>
    unfold sort_by_size_desc
    exact (insert_by_size_desc_perm x (sort_by_size_desc xs)).trans (ih.cons x)

theorem insert_by_size_desc_pairwise (x : FileInfo) (l : List FileInfo)
    (hl : l.Pairwise (fun a b => b.size ≤ a.size)) :
    (insert_by_size_desc x l).Pairwise (fun a b => b.size ≤ a.size) := by
  induction l with
  | nil => simp [insert_by_size_desc]
  | cons y ys ih =>
    unfold insert_by_size_desc
    rcases List.pairwise_cons.mp hl with ⟨hy_ys, hys⟩
    by_cases hy : y.size ≤ x.size
    · simp only [hy, if_true]
      refine List.pairwise_cons.mpr ⟨?_, hl⟩
      intro b hb
      rcases List.mem_cons.mp hb with hb | hb
      · subst hb
        exact hy
      · exact le_trans (hy_ys b hb) hy
    · simp only [hy, if_false]
      refine List.pairwise_cons.mpr ⟨?_, ih hys⟩
      intro b hb
      rcases (mem_insert_by_size_desc b x ys).mp hb with hb | hb
      · subst hb
        omega
      · exact hy_ys b hb

theorem sort_by_size_desc_pairwise (l : List FileInfo) :
    (sort_by_size_desc l).Pairwise (fun a b => b.size ≤ a.size) := by
  induction l with
  | nil => simp [sort_by_size_desc]
  | cons x xs ih =>
    unfold sort_by_size_desc
    exact insert_by_size_desc_pairwise x _ ih

theorem filter_size_insert_by_size_desc (x : FileInfo) (l : List FileInfo) (s : Nat) :
    (insert_by_size_desc x l).filter (fun i => i.size = s) =
      if x.size = s then x :: l.filter (fun i => i.size = s)
      else l.filter (fun i => i.size = s) := by
  induction l with
  | nil =>
    simp only [insert_by_size_desc]
    by_cases hx : x.size = s <;> simp [hx]
  | cons y ys ih =>
    unfold insert_by_size_desc
    by_cases hy : y.size ≤ x.size
    · rw [if_pos hy, List.filter_cons]
      by_cases hx : x.size = s <;> simp [hx]
    · rw [if_neg hy]
      have hlt : x.size < y.size := Nat.lt_of_not_le hy
      by_cases hx : x.size = s
      · have hys : ¬ (y.size = s) := by omega
        simp [List.filter_cons, ih, hx, hys]
      · by_cases hys : y.size = s <;> simp [List.filter_cons, ih, hx, hys]

theorem filter_size_sort_by_size_desc (l : List FileInfo) (s : Nat) :
    (sort_by_size_desc l).filter (fun i => i.size = s) =
      l.filter (fun i => i.size = s) := by
  induction l with
  | nil => simp [sort_by_size_desc]
  | cons x xs ih =>
    unfold sort_by_size_desc
    rw [filter_size_insert_by_size_desc, ih, List.filter_cons]
    by_cases hx : x.size = s <;> simp [hx]

end Gitlsf

namespace Gitlsf

theorem count_lines_eq_of_open_fail (fs : FS) (base_path file_path : String)
    (hf : fs (joinPath base_path file_path) = none) :
    count_lines fs base_path file_path =
      Except.error (GitlsfError.io (joinPath base_path file_path)) := by
  simp only [count_lines]
  rw [hf]

theorem count_lines_eq_of_meta_fail (fs : FS) (base_path file_path : String)
    (f : FileData) (hf : fs (joinPath base_path file_path) = some f)
    (hm : f.metaOk = false) :
    count_lines fs base_path file_path =
      Except.error (GitlsfError.io (joinPath base_path file_path)) := by
  simp only [count_lines]
  rw [hf]
  simp [hm]

theorem count_lines_eq_of_read_fail (fs : FS) (base_path file_path : String)
    (f : FileData) (hf : fs (joinPath base_path file_path) = some f)
    (hm : f.metaOk = true) (hsz : f.content.length ≤ MMAP_THRESHOLD)
    (hr : f.readOk = false) :
    count_lines fs base_path file_path =
      Except.error (GitlsfError.io (joinPath base_path file_path)) := by
  simp only [count_lines]
  rw [hf]
  simp [hm, Nat.not_lt.mpr hsz, count_lines_buffered, hr]

theorem count_lines_eq_of_mmap_fail (fs : FS) (base_path file_path : String)
    (f : FileData) (hf : fs (joinPath base_path file_path) = some f)
    (hm : f.metaOk = true) (hsz : MMAP_THRESHOLD < f.content.length)
    (hmm : f.mmapOk = false) :
    count_lines fs base_path file_path =
      Except.error (GitlsfError.git "Failed to create memory map") := by
  simp only [count_lines]
  rw [hf]
  simp [hm, hsz, count_lines_mmap, hmm]

theorem count_lines_eq_of_flags (fs : FS) (base_path file_path : String)
    (f : FileData) (hf : fs (joinPath base_path file_path) = some f)
    (hm : f.metaOk = true)
    (hmm : MMAP_THRESHOLD < f.content.length → f.mmapOk = true)
    (hr : f.content.length ≤ MMAP_THRESHOLD → f.readOk = true) :
    count_lines fs base_path file_path = Except.ok (spec_line_count f.content) := by
  simp only [count_lines]
  rw [hf]
  by_cases hsz : MMAP_THRESHOLD < f.content.length
  · simp [hm, hsz, count_lines_mmap, hmm hsz, count_lines_mmap_content_eq_spec]
  · simp [hm, hsz, count_lines_buffered, hr (Nat.not_lt.mp hsz),
      count_lines_buffered_content_eq_spec]

theorem count_lines_ok_inv (fs : FS) (base_path file_path : String) (n : Nat)
    (h : count_lines fs base_path file_path = Except.ok n) :
    ∃ f, fs (joinPath base_path file_path) = some f ∧ f.metaOk = true ∧
      n = spec_line_count f.content := by
  simp only [count_lines] at h
  cases hf : fs (joinPath base_path file_path) with
  | none =>
    rw [hf] at h
    simp at h
  | some f =>
    rw [hf] at h
    dsimp only at h
    refine ⟨f, rfl, ?_⟩
    by_cases hm : f.metaOk
    · rw [if_pos hm] at h
      refine ⟨hm, ?_⟩
      by_cases hsz : f.content.length > MMAP_THRESHOLD
      · rw [if_pos hsz] at h
        unfold count_lines_mmap at h
        by_cases hmm : f.mmapOk
        · rw [if_pos hmm] at h
          simp only [Except.ok.injEq] at h
          rw [← h, count_lines_mmap_content_eq_spec]
        · rw [if_neg hmm] at h
          simp at h
      · rw [if_neg hsz] at h
        unfold count_lines_buffered at h
        by_cases hr : f.readOk
        · rw [if_pos hr] at h
          simp only [Except.ok.injEq] at h
          rw [← h, count_lines_buffered_content_eq_spec]
        · rw [if_neg hr] at h
          simp at h
    · rw [if_neg hm] at h
      simp at h

end Gitlsf

namespace Gitlsf

/-- A concrete file for witness theorems: content `"hi\n"`, all operations
succeeding. -/
def fileW : FileData :=
  { metaOk := true, readOk := true, mmapOk := true, content := [104, 105, 10] }

/-- A concrete one-file file-system state for witness theorems. -/
def fsW : FS := fun s => if s = "repo/a.txt" then some fileW else none

/-- A file one byte above the mmap threshold whose memory mapping fails. -/
def fileBig : FileData :=
  { metaOk := true, readOk := true, mmapOk := false
    content := List.replicate (MMAP_THRESHOLD + 1) 0 }

/-- A file-system state holding only `fileBig`. -/
def fsBig : FS := fun s => if s = "repo/big.bin" then some fileBig else none

/-- C1: for every file content viewed as a byte sequence, both scanning
strategies (`count_lines_mmap` and `count_lines_buffered`) return the
number of `\n` bytes plus one when the content is non-empty and its last
byte is not `\n`; in particular the count of the empty content is 0. -/
theorem C1_count_eq_newlines_plus_trailing :
    (∀ s : List Nat,
      count_lines_mmap_content s = spec_line_count s ∧
      count_lines_buffered_go s 0 none = spec_line_count s) ∧
    spec_line_count [] = 0 :=
  ⟨fun s => ⟨count_lines_mmap_content_eq_spec s,
    count_lines_buffered_content_eq_spec s⟩, rfl⟩

/-- C2: every summary built by `CountSummary::from_counts` — hence every
summary returned by `count_lines_parallel` and `count_lines_sequential` —
has `total_lines` equal to the sum of the `lines` fields of its `files`
and `file_count` equal to the length of `files`. -/
theorem C2_summary_invariant :
    (∀ files : List FileCount,
      (CountSummary.from_counts files).total_lines =
        ((CountSummary.from_counts files).files.map (fun f => f.lines)).sum ∧
      (CountSummary.from_counts files).file_count =
        (CountSummary.from_counts files).files.length) ∧
    (∀ (fs : FS) (base_path : String) (paths : List String),
      ((count_lines_parallel fs base_path paths).total_lines =
        ((count_lines_parallel fs base_path paths).files.map (fun f => f.lines)).sum ∧
       (count_lines_parallel fs base_path paths).file_count =
        (count_lines_parallel fs base_path paths).files.length) ∧
      ((count_lines_sequential fs base_path paths).total_lines =
        ((count_lines_sequential fs base_path paths).files.map (fun f => f.lines)).sum ∧
       (count_lines_sequential fs base_path paths).file_count =
        (count_lines_sequential fs base_path paths).files.length)) :=
  ⟨fun _ => ⟨rfl, rfl⟩, fun _ _ _ => ⟨⟨rfl, rfl⟩, ⟨rfl, rfl⟩⟩⟩

/-- C4: the memory-mapped and the buffered scanning strategies agree on
every content, and whenever `count_lines` succeeds its value is the
content's line count, independent of which strategy the size dispatch
selected. -/
theorem C4_strategies_agree :
    (∀ s : List Nat, count_lines_mmap_content s = count_lines_buffered_go s 0 none) ∧
    (∀ (fs : FS) (base_path file_path : String) (f : FileData) (n : Nat),
      fs (joinPath base_path file_path) = some f →
      count_lines fs base_path file_path = Except.ok n →
      n = spec_line_count f.content) := by
  constructor
  · intro s
    rw [count_lines_mmap_content_eq_spec, count_lines_buffered_content_eq_spec]
  · intro fs base_path file_path f n hf hok
    obtain ⟨f', hf', _, hn⟩ := count_lines_ok_inv fs base_path file_path n hok
    have hff : f = f' := by
      have := hf.symm.trans hf'
      exact Option.some.injEq _ _ ▸ this
    rw [hff]
    exact hn

/-- C4 witness: on the concrete state `fsW`, `count_lines` returns 1 for
the file `"repo/a.txt"` with content `"hi\n"`, and the theorem identifies
that value with the content's line count. -/
theorem C4_strategies_agree_witness :
    (1 : Nat) = spec_line_count fileW.content :=
  C4_strategies_agree.2 fsW "repo" "a.txt" fileW 1 (by decide)
    (by rw [count_lines_eq_of_flags fsW "repo" "a.txt" fileW (by decide) rfl
          (fun _ => rfl) (fun _ => rfl)]
        have h1 : spec_line_count fileW.content = 1 := by decide
        rw [h1])

/-- C7: with the file open and its metadata readable, `count_lines`
dispatches on the size reported by the metadata: the memory-mapped
strategy exactly when the size exceeds `MMAP_THRESHOLD`, the chunked
buffered strategy otherwise. -/
theorem C7_strategy_selection :
    ∀ (fs : FS) (base_path file_path : String) (f : FileData),
      fs (joinPath base_path file_path) = some f →
      f.metaOk = true →
      count_lines fs base_path file_path =
        (if f.content.length > MMAP_THRESHOLD then count_lines_mmap f
         else count_lines_buffered f (joinPath base_path file_path)) := by
  intro fs base_path file_path f hf hm
  simp only [count_lines]
  rw [hf]
  dsimp only
  rw [if_pos hm]

/-- C7 witness: the dispatch equation instantiated at the concrete state
`fsW` and the file `"repo/a.txt"`. -/
theorem C7_strategy_selection_witness :
    count_lines fsW "repo" "a.txt" =
      (if fileW.content.length > MMAP_THRESHOLD then count_lines_mmap fileW
       else count_lines_buffered fileW (joinPath "repo" "a.txt")) :=
  C7_strategy_selection fsW "repo" "a.txt" fileW (by decide) rfl

end Gitlsf

namespace Gitlsf

/-- C9 counterexample: on a file one byte above the mmap threshold whose
memory mapping fails, `count_lines` returns the fixed-message `Git`-variant
error produced by `GitlsfError::git_with_source`, which carries no path —
refuting the claim that every `count_lines` error carries the offending
full path. -/
theorem C9_counterexample_mmap_error_carries_no_path :
    count_lines fsBig "repo" "big.bin" =
      Except.error (GitlsfError.git "Failed to create memory map") ∧
    GitlsfError.carried_path (GitlsfError.git "Failed to create memory map") = none := by
  constructor
  · refine count_lines_eq_of_mmap_fail fsBig "repo" "big.bin" fileBig rfl rfl ?_ rfl
    show MMAP_THRESHOLD < (List.replicate (MMAP_THRESHOLD + 1) 0).length
    rw [List.length_replicate]
    omega
  · rfl

/-- C9 (amended): `count_lines` returns an error exactly when the open,
the metadata lookup, the buffered read, or the memory mapping fails, and
never silently omits a failure; the open, metadata, and read errors carry
the offending full path, while a memory-mapping failure is reported as a
`Git`-variant error with a fixed message and no path. -/
theorem C9_error_exactly_on_failure :
    ∀ (fs : FS) (base_path file_path : String),
      (fs (joinPath base_path file_path) = none →
        count_lines fs base_path file_path =
          Except.error (GitlsfError.io (joinPath base_path file_path))) ∧
      (∀ f : FileData, fs (joinPath base_path file_path) = some f →
        (f.metaOk = false →
          count_lines fs base_path file_path =
            Except.error (GitlsfError.io (joinPath base_path file_path))) ∧
        (f.metaOk = true → f.content.length ≤ MMAP_THRESHOLD → f.readOk = false →
          count_lines fs base_path file_path =
            Except.error (GitlsfError.io (joinPath base_path file_path))) ∧
        (f.metaOk = true → MMAP_THRESHOLD < f.content.length → f.mmapOk = false →
          count_lines fs base_path file_path =
            Except.error (GitlsfError.git "Failed to create memory map")) ∧
        (f.metaOk = true →
          (MMAP_THRESHOLD < f.content.length → f.mmapOk = true) →
          (f.content.length ≤ MMAP_THRESHOLD → f.readOk = true) →
          count_lines fs base_path file_path =
            Except.ok (spec_line_count f.content))) := by
  intro fs base_path file_path
  constructor
  · intro hf
    exact count_lines_eq_of_open_fail fs base_path file_path hf
  · intro f hf
    refine ⟨?_, ?_, ?_, ?_⟩
    · intro hm
      exact count_lines_eq_of_meta_fail fs base_path file_path f hf hm
    · intro hm hsz hr
      exact count_lines_eq_of_read_fail fs base_path file_path f hf hm hsz hr
    · intro hm hsz hmm
      exact count_lines_eq_of_mmap_fail fs base_path file_path f hf hm hsz hmm
    · intro hm hmm hr
      exact count_lines_eq_of_flags fs base_path file_path f hf hm hmm hr

/-- C9 witness: the amended characterization applied to a missing path of
the concrete state `fsW`: the returned error carries the full path. -/
theorem C9_error_exactly_on_failure_witness :
    count_lines fsW "repo" "missing.txt" =
      Except.error (GitlsfError.io (joinPath "repo" "missing.txt")) :=
  (C9_error_exactly_on_failure fsW "repo" "missing.txt").1 (by decide)

end Gitlsf

namespace Gitlsf

/-- The per-path step of `count_lines_sequential` (`src/counter.rs` lines
296-302), also the body the parallel groups apply through `FileInfo`
entries: success becomes a `FileCount`, failure is dropped. -/
def count_file_path (fs : FS) (base_path file_path : String) : Option FileCount :=
  match count_lines fs base_path file_path with
  | Except.ok lines => some (FileCount.new file_path lines)
  | Except.error _ => none

theorem sequential_files_eq (fs : FS) (base_path : String) (paths : List String) :
    (count_lines_sequential fs base_path paths).files =
      paths.filterMap (count_file_path fs base_path) := rfl

theorem parallel_files_eq (fs : FS) (base_path : String) (paths : List String) :
    (count_lines_parallel fs base_path paths).files =
      ((partition_small_large (collect_file_infos fs base_path paths)).1.filterMap
        (count_file_info fs base_path)) ++
      ((sort_by_size_desc
          ((partition_small_large (collect_file_infos fs base_path paths)).2)).filterMap
        (count_file_info fs base_path)) := rfl

theorem count_file_path_of_ok (fs : FS) (base_path file_path : String) (n : Nat)
    (h : count_lines fs base_path file_path = Except.ok n) :
    count_file_path fs base_path file_path = some (FileCount.new file_path n) := by
  unfold count_file_path
  rw [h]

theorem count_file_path_of_error (fs : FS) (base_path file_path : String) (e : GitlsfError)
    (h : count_lines fs base_path file_path = Except.error e) :
    count_file_path fs base_path file_path = none := by
  unfold count_file_path
  rw [h]

theorem count_file_path_some_inv (fs : FS) (base_path file_path : String) (fc : FileCount)
    (h : count_file_path fs base_path file_path = some fc) :
    fc.path = file_path ∧ count_lines fs base_path file_path = Except.ok fc.lines := by
  unfold count_file_path at h
  cases hc : count_lines fs base_path file_path with
  | ok n =>
    rw [hc] at h
    dsimp only at h
    simp only [Option.some.injEq] at h
    rw [← h]
    exact ⟨rfl, rfl⟩
  | error e =>
    rw [hc] at h
    dsimp only at h
    simp at h

theorem count_file_path_of_meta_none (fs : FS) (base_path file_path : String)
    (h : fsMetadata fs (joinPath base_path file_path) = none) :
    count_file_path fs base_path file_path = none := by
  unfold fsMetadata at h
  cases hf : fs (joinPath base_path file_path) with
  | none =>
    exact count_file_path_of_error fs base_path file_path _
      (count_lines_eq_of_open_fail fs base_path file_path hf)
  | some f =>
    rw [hf] at h
    dsimp only at h
    by_cases hm : f.metaOk
    · rw [if_pos hm] at h
      simp at h
    · exact count_file_path_of_error fs base_path file_path _
        (count_lines_eq_of_meta_fail fs base_path file_path f hf
          (Bool.not_eq_true f.metaOk ▸ hm))

theorem collect_then_count (fs : FS) (base_path : String) (paths : List String) :
    (collect_file_infos fs base_path paths).filterMap (count_file_info fs base_path) =
      paths.filterMap (count_file_path fs base_path) := by
  unfold collect_file_infos
  rw [List.filterMap_filterMap]
  apply List.filterMap_congr
  intro p _
  cases hmeta : fsMetadata fs (joinPath base_path p) with
  | none =>
    simp only [hmeta, Option.map_none', Option.none_bind]
    exact (count_file_path_of_meta_none fs base_path p hmeta).symm
  | some size =>
    simp only [hmeta, Option.map_some', Option.some_bind]
    rfl

theorem partition_append_perm (l : List FileInfo) :
    ((partition_small_large l).1 ++ (partition_small_large l).2).Perm l := by
  unfold partition_small_large
  rw [List.partition_eq_filter_filter]
  exact List.filter_append_perm _ l

theorem parallel_files_perm_sequential (fs : FS) (base_path : String) (paths : List String) :
    ((count_lines_parallel fs base_path paths).files).Perm
      ((count_lines_sequential fs base_path paths).files) := by
  rw [parallel_files_eq, sequential_files_eq]
  have h1 : ((sort_by_size_desc
        ((partition_small_large (collect_file_infos fs base_path paths)).2)).filterMap
      (count_file_info fs base_path)).Perm
      (((partition_small_large (collect_file_infos fs base_path paths)).2).filterMap
        (count_file_info fs base_path)) :=
    (sort_by_size_desc_perm _).filterMap _
  refine (List.Perm.append_left _ h1).trans ?_
  rw [← List.filterMap_append]
  refine ((partition_append_perm _).filterMap _).trans ?_
  rw [collect_then_count]

end Gitlsf

namespace Gitlsf

theorem partition_small_eq_filter (l : List FileInfo) :
    (partition_small_large l).1 = l.filter (fun i => i.size < PARALLEL_THRESHOLD) := by
  unfold partition_small_large
  rw [List.partition_eq_filter_filter]

theorem partition_large_eq_filter (l : List FileInfo) :
    (partition_small_large l).2 = l.filter (fun i => PARALLEL_THRESHOLD ≤ i.size) := by
  unfold partition_small_large
  rw [List.partition_eq_filter_filter]
  apply List.filter_congr
  intro x _
  by_cases h : x.size < PARALLEL_THRESHOLD
  · simp [h, Nat.not_le.mpr h]
  · simp [h, Nat.not_lt.mp h]

theorem map_path_filterMap (fs : FS) (base_path : String) (ps : List String) :
    (ps.filterMap (count_file_path fs base_path)).map (fun fc => fc.path) =
      ps.filter (fun p => (count_lines fs base_path p).isOk) := by
  induction ps with
  | nil => rfl
  | cons p ps ih =>
    rw [List.filterMap_cons, List.filter_cons]
    cases hc : count_lines fs base_path p with
    | ok n =>
      rw [count_file_path_of_ok fs base_path p n hc]
      simp [ih, FileCount.new, Except.isOk, Except.toBool]
    | error e =>
      rw [count_file_path_of_error fs base_path p e hc]
      simp [ih, Except.isOk, Except.toBool]

/-- C3: the batch functions always return a summary (they are total
functions into `CountSummary`): a path on which `count_lines` succeeds
contributes its entry to both batch results, and a path on which
`count_lines` fails is silently excluded from both — no error is ever
returned or raised by the batch. -/
theorem C3_batch_recovers_locally :
    ∀ (fs : FS) (base_path : String) (paths : List String) (p : String),
      (∀ n : Nat, p ∈ paths → count_lines fs base_path p = Except.ok n →
        FileCount.new p n ∈ (count_lines_sequential fs base_path paths).files ∧
        FileCount.new p n ∈ (count_lines_parallel fs base_path paths).files) ∧
      (∀ e : GitlsfError, count_lines fs base_path p = Except.error e →
        ∀ m : Nat,
          FileCount.new p m ∉ (count_lines_sequential fs base_path paths).files ∧
          FileCount.new p m ∉ (count_lines_parallel fs base_path paths).files) := by
  intro fs base_path paths p
  constructor
  · intro n hp hok
    have hmem : FileCount.new p n ∈ (count_lines_sequential fs base_path paths).files := by
      rw [sequential_files_eq]
      exact List.mem_filterMap.mpr ⟨p, hp, count_file_path_of_ok fs base_path p n hok⟩
    exact ⟨hmem, ((parallel_files_perm_sequential fs base_path paths).mem_iff).mpr hmem⟩
  · intro e herr m
    have hseq : FileCount.new p m ∉ (count_lines_sequential fs base_path paths).files := by
      intro hmem
      rw [sequential_files_eq] at hmem
      obtain ⟨q, _, hq⟩ := List.mem_filterMap.mp hmem
      obtain ⟨hpath, hok⟩ := count_file_path_some_inv fs base_path q _ hq
      have hpq : p = q := hpath
      rw [← hpq, herr] at hok
      simp at hok
    exact ⟨hseq, fun hmem =>
      hseq (((parallel_files_perm_sequential fs base_path paths).mem_iff).mp hmem)⟩

/-- C3 witness: in the concrete state `fsW`, the batch over a readable and
a missing path contains the readable file's entry in both batch results. -/
theorem C3_batch_recovers_locally_witness :
    FileCount.new "a.txt" 1 ∈
      (count_lines_sequential fsW "repo" ["a.txt", "missing.txt"]).files ∧
    FileCount.new "a.txt" 1 ∈
      (count_lines_parallel fsW "repo" ["a.txt", "missing.txt"]).files :=
  (C3_batch_recovers_locally fsW "repo" ["a.txt", "missing.txt"] "a.txt").1 1
    (by decide)
    (by rw [count_lines_eq_of_flags fsW "repo" "a.txt" fileW (by decide) rfl
          (fun _ => rfl) (fun _ => rfl)]
        have h1 : spec_line_count fileW.content = 1 := by decide
        rw [h1])

/-- C5: over a fixed file-system state, the parallel and the sequential
batch produce permutations of each other's `files` lists — the same
multiset of `FileCount` entries — and therefore equal `total_lines` and
equal `file_count`. -/
theorem C5_parallel_sequential_same_multiset :
    ∀ (fs : FS) (base_path : String) (paths : List String),
      ((count_lines_parallel fs base_path paths).files).Perm
        ((count_lines_sequential fs base_path paths).files) ∧
      (count_lines_parallel fs base_path paths).total_lines =
        (count_lines_sequential fs base_path paths).total_lines ∧
      (count_lines_parallel fs base_path paths).file_count =
        (count_lines_sequential fs base_path paths).file_count := by
  intro fs base_path paths
  have hperm := parallel_files_perm_sequential fs base_path paths
  refine ⟨hperm, ?_, ?_⟩
  · show ((count_lines_parallel fs base_path paths).files.map (fun f => f.lines)).sum =
      ((count_lines_sequential fs base_path paths).files.map (fun f => f.lines)).sum
    exact (hperm.map _).sum_eq
  · show (count_lines_parallel fs base_path paths).files.length =
      (count_lines_sequential fs base_path paths).files.length
    exact hperm.length_eq

/-- C6: the partition stage sends exactly the entries strictly below
`PARALLEL_THRESHOLD` to the small group (kept in their original relative
order, as a filter of the collected infos) and the entries at or above it
to the large group; the large group is then sorted by size descending (a
permutation of the large group, pairwise non-increasing in size). -/
theorem C6_partition_by_threshold_and_sort :
    ∀ (fs : FS) (base_path : String) (paths : List String),
      (partition_small_large (collect_file_infos fs base_path paths)).1 =
        (collect_file_infos fs base_path paths).filter
          (fun i => i.size < PARALLEL_THRESHOLD) ∧
      (partition_small_large (collect_file_infos fs base_path paths)).2 =
        (collect_file_infos fs base_path paths).filter
          (fun i => PARALLEL_THRESHOLD ≤ i.size) ∧
      ((sort_by_size_desc
          ((partition_small_large (collect_file_infos fs base_path paths)).2)).Perm
        ((partition_small_large (collect_file_infos fs base_path paths)).2)) ∧
      (sort_by_size_desc
          ((partition_small_large (collect_file_infos fs base_path paths)).2)).Pairwise
        (fun a b => b.size ≤ a.size) :=
  fun fs base_path paths =>
    ⟨partition_small_eq_filter _, partition_large_eq_filter _,
      sort_by_size_desc_perm _, sort_by_size_desc_pairwise _⟩

/-- C8: the parallel result's `files` is the small-group successes (small
group in original relative order) followed by the large-group successes
in the processed order of the sorted large group, with the summary derived
from exactly that sequence; and the sequential result lists the successes
in input order — its paths are the input paths filtered to those on which
`count_lines` succeeds. -/
theorem C8_files_order :
    ∀ (fs : FS) (base_path : String) (paths : List String),
      (count_lines_parallel fs base_path paths).files =
        ((partition_small_large (collect_file_infos fs base_path paths)).1.filterMap
          (count_file_info fs base_path)) ++
        ((sort_by_size_desc
            ((partition_small_large (collect_file_infos fs base_path paths)).2)).filterMap
          (count_file_info fs base_path)) ∧
      (count_lines_sequential fs base_path paths).files.map (fun fc => fc.path) =
        paths.filter (fun p => (count_lines fs base_path p).isOk) ∧
      count_lines_parallel fs base_path paths =
        CountSummary.from_counts ((count_lines_parallel fs base_path paths).files) := by
  intro fs base_path paths
  refine ⟨parallel_files_eq fs base_path paths, ?_, rfl⟩
  rw [sequential_files_eq]
  exact map_path_filterMap fs base_path paths

/-- C10: `count_lines_parallel` is a pure function of the file-system
state and its inputs — its result, including the order of `files`, is the
one determined by the stable size-descending sort: the large-group entries
are processed in pairwise non-increasing size order, and entries of equal
size keep their original relative order (the filter at each exact size is
unchanged by the sort), never a scheduling-dependent completion order. -/
theorem C10_parallel_deterministic_order :
    ∀ (fs : FS) (base_path : String) (paths : List String),
      count_lines_parallel fs base_path paths =
        CountSummary.from_counts
          (((partition_small_large (collect_file_infos fs base_path paths)).1.filterMap
            (count_file_info fs base_path)) ++
           ((sort_by_size_desc
              ((partition_small_large (collect_file_infos fs base_path paths)).2)).filterMap
            (count_file_info fs base_path))) ∧
      (sort_by_size_desc
          ((partition_small_large (collect_file_infos fs base_path paths)).2)).Pairwise
        (fun a b => b.size ≤ a.size) ∧
      (∀ s : Nat,
        (sort_by_size_desc
            ((partition_small_large (collect_file_infos fs base_path paths)).2)).filter
          (fun i => i.size = s) =
        ((partition_small_large (collect_file_infos fs base_path paths)).2).filter
          (fun i => i.size = s)) :=
  fun fs base_path paths =>
    ⟨rfl, sort_by_size_desc_pairwise _, fun s => filter_size_sort_by_size_desc _ s⟩

end Gitlsf
